import Mathlib

/-!
Verification of the rapsqlite concurrency/resource core against its
natural-language specification.

The repository ships the Python façade (`rapsqlite/__init__.py`) and its test
suite under `src/`, while the native core (`_rapsqlite`, a compiled extension)
is not part of the source tree.  Following the spec, the core components —
value marshaller, connection pool, transaction controller, row materializer,
and the pool-configuration accessors — are modelled here as executable Lean
definitions; where the spec's words and the in-tree tests disagree, the tests
(which are source code of this repository) are taken as the authority and the
divergence is recorded in the corresponding theorem.
-/

namespace Rapsqlite

/-- Modelled from the spec: the tagged SQL value union of the value marshaller
(C1, missing native core): 64-bit signed integer, IEEE-754 double (represented
here by its 64-bit pattern, since only identity of the stored value matters to
the claims), UTF-8 text, byte string, and null. -/
inductive SqlValue where
  | integer (v : Int)
  | real (bits : Nat)
  | text (s : String)
  | blob (b : List Nat)
  | null
deriving DecidableEq, Repr

/-- Modelled from the spec: host-language (Python) values accepted as bound
parameters, the marshaller's input domain. -/
inductive HostValue where
  | int (v : Int)
  | float (bits : Nat)
  | str (s : String)
  | bytes (b : List Nat)
  | pyNone
deriving DecidableEq, Repr

/-- Modelled from the spec: the tagged error kinds the core emits
(section 6 of the spec). -/
inductive RapError where
  | operationalError (msg : String)
  | poolTimeout
  | outOfRange
  | encoding
  | noRow
  | engineError (code : Nat)
deriving DecidableEq, Repr

/-- Lower bound of the signed 64-bit range. -/
def int64Min : Int := -(2 ^ 63)

/-- Upper bound of the signed 64-bit range. -/
def int64Max : Int := 2 ^ 63 - 1

/-- Modelled from the spec: the value marshaller's binding direction (missing
native core, spec section 4.1).  Integers in the signed 64-bit range bind as
INTEGER, outside that range the marshaller fails with `OutOfRange`; reals bind
as REAL, text as TEXT, byte strings as BLOB, and `None` as NULL. -/
def bindValue : HostValue → Except RapError SqlValue
  | .int v =>
      if v < int64Min ∨ int64Max < v then .error .outOfRange
      else .ok (.integer v)
  | .float bits => .ok (.real bits)
  | .str s => .ok (.text s)
  | .bytes b => .ok (.blob b)
  | .pyNone => .ok .null

/-- Modelled from the spec: the row materializer's inverse mapping (missing
native core, spec section 4.8): integer → int, real → float, text → string,
blob → bytes, null → None. -/
def decodeValue : SqlValue → HostValue
  | .integer v => .int v
  | .real bits => .float bits
  | .text s => .str s
  | .blob b => .bytes b
  | .null => .pyNone

/-- A row is an ordered sequence of SQL values, positionally indexed. -/
def Row := List SqlValue
deriving DecidableEq, Repr

/-- Modelled from the spec: materializing a row decodes each column through
the marshaller's inverse mapping. -/
def materializeRow (r : Row) : List HostValue := r.map decodeValue

/-- Modelled from the spec: the single-parameter round trip exercised by the
integer round-trip property test: bind the host value, store it as a one-column
row, fetch that row back and materialize its single column. -/
def roundTrip (v : HostValue) : Except RapError HostValue := do
  let sv ← bindValue v
  let table : List Row := [[sv]]
  match table with
  | [] => .error .noRow
  | r :: _ =>
      match materializeRow r with
      | [] => .error .noRow
      | h :: _ => .ok h

/-- Claim C1: for every integer v in the signed 64-bit range, inserting v as a
bound parameter and selecting it back returns v exactly: the marshaller binds
it as INTEGER without error and the row materializer decodes it to the same
host integer. -/
theorem integer_round_trip_exact (v : Int)
    (hlo : int64Min ≤ v) (hhi : v ≤ int64Max) :
    roundTrip (.int v) = .ok (.int v) := by
  have hnot : ¬ (v < int64Min ∨ int64Max < v) := by
    push_neg
    exact ⟨hlo, hhi⟩
  simp [roundTrip, bindValue, hnot, materializeRow, decodeValue, Bind.bind,
    Except.bind]

/-- Witness for C1: the extreme value 2^63 − 1 is in range and round-trips. -/
theorem integer_round_trip_exact_witness :
    int64Min ≤ (2 ^ 63 - 1 : Int) ∧ (2 ^ 63 - 1 : Int) ≤ int64Max ∧
      roundTrip (.int (2 ^ 63 - 1)) = .ok (.int (2 ^ 63 - 1)) :=
  ⟨by decide, by decide,
    integer_round_trip_exact (2 ^ 63 - 1) (by decide) (by decide)⟩

/-! ## Transaction controller (spec section 4.7) -/

/-- Modelled from the spec: the transaction controller's state (missing native
core): `IDLE`, `STARTING`, `ACTIVE(conn)` with exactly one pinned connection,
or `FINISHING`.  `STARTING`/`FINISHING` are the transient states held while the
`BEGIN`/`COMMIT`/`ROLLBACK` statement is in flight. -/
inductive TxState where
  | idle
  | starting
  | active (conn : Nat)
  | finishing
deriving DecidableEq, Repr

/-- Modelled from the spec: the logical database object as seen through the
transaction controller — the committed rows of the table under test, the
pending (uncommitted) inserts of the running transaction, and the controller
state.  Pending rows live on the pinned connection and become visible only on
`COMMIT`. -/
structure Db where
  rows : List Row
  pending : List Row
  tx : TxState
deriving DecidableEq, Repr

/-- The error every transaction-state violation surfaces
(spec section 7: `OperationalError` whose message contains
"already in progress"). -/
def alreadyInProgress : RapError :=
  .operationalError "transaction already in progress"

/-- Checks whether `pat` occurs as a contiguous run inside `s`, by testing it
against every suffix. -/
def hasInfix (pat : List Char) : List Char → Bool
  | [] => pat.isEmpty
  | c :: rest => pat.isPrefixOf (c :: rest) || hasInfix pat rest

/-- Substring containment test used to state "message contains
\"already in progress\"". -/
def msgContains (msg pat : String) : Bool :=
  hasInfix pat.data msg.data

/-- Modelled from the spec: `begin()` (missing native core, spec section 4.7).
From `IDLE` it acquires a handle from the pool, submits `BEGIN` and pins the
handle; from every other state it fails fast with the "already in progress"
`OperationalError`. -/
def beginTx (db : Db) (conn : Nat) : Except RapError Db :=
  match db.tx with
  | .idle => .ok { db with tx := .active conn }
  | _ => .error alreadyInProgress

/-- Modelled from the spec: a failed Python call leaves the object as it was;
`applyBegin` runs `begin()` and keeps the prior state when it raises, pairing
the surviving state with the raised error. -/
def applyBegin (db : Db) (conn : Nat) : Db × Option RapError :=
  match beginTx db conn with
  | .ok db2 => (db2, none)
  | .error e => (db, some e)

/-- Modelled from the spec: executing one INSERT statement (missing native
core).  While `ACTIVE` the statement is submitted on the pinned connection and
its effect stays in the transaction; otherwise a handle is acquired ad hoc and
the row is autocommitted. -/
def execInsert (db : Db) (r : Row) : Db :=
  match db.tx with
  | .active _ => { db with pending := db.pending ++ [r] }
  | _ => { db with rows := db.rows ++ [r] }

/-- Executing a list of INSERT statements in submission order. -/
def execInserts (db : Db) (rs : List Row) : Db :=
  rs.foldl execInsert db

/-- Modelled from the spec: `commit()` (missing native core).  From
`ACTIVE(c)` it submits `COMMIT` on the pinned connection, making the pending
rows durable, releases the connection and returns to `IDLE`; from any other
state there is no transaction to commit and the call fails. -/
def commitTx (db : Db) : Except RapError Db :=
  match db.tx with
  | .active _ =>
      .ok { rows := db.rows ++ db.pending, pending := [], tx := .idle }
  | _ => .error (.operationalError "no transaction in progress")

/-- Modelled from the spec: `rollback()` (missing native core).  From
`ACTIVE(c)` it submits `ROLLBACK` on the pinned connection, discarding the
pending rows, releases the connection and returns to `IDLE`; from any other
state the call fails. -/
def rollbackTx (db : Db) : Except RapError Db :=
  match db.tx with
  | .active _ => .ok { rows := db.rows, pending := [], tx := .idle }
  | _ => .error (.operationalError "no transaction in progress")

/-- Claim C4: calling `begin()` when the controller is not `IDLE` raises an
`OperationalError` whose message contains "already in progress", and the
failed call leaves the database object — its transaction state, its pinned
connection and its data — exactly as it was. -/
theorem begin_not_idle_fails_unchanged (db : Db) (conn : Nat)
    (h : db.tx ≠ .idle) :
    ∃ msg, applyBegin db conn = (db, some (.operationalError msg)) ∧
      msgContains msg "already in progress" = true := by
  refine ⟨"transaction already in progress", ?_, by decide⟩
  unfold applyBegin beginTx
  cases htx : db.tx with
  | idle => exact absurd htx h
  | starting => simp [alreadyInProgress]
  | active c => simp [alreadyInProgress]
  | finishing => simp [alreadyInProgress]

/-- Witness for C4: `begin()` against a database already `ACTIVE` on
connection 0 fails with the "already in progress" message and changes
nothing. -/
theorem begin_not_idle_fails_unchanged_witness :
    ({ rows := [], pending := [], tx := .active 0 } : Db).tx ≠ .idle ∧
      ∃ msg,
        applyBegin { rows := [], pending := [], tx := .active 0 } 1 =
          ({ rows := [], pending := [], tx := .active 0 }, some
            (.operationalError msg)) ∧
        msgContains msg "already in progress" = true :=
  ⟨by decide,
    begin_not_idle_fails_unchanged
      { rows := [], pending := [], tx := .active 0 } 1 (by decide)⟩

/-- Claim C5: for every starting table contents and every sequence of inserts
run between `begin()` and `rollback()`, the rollback discards the pending work:
the persisted rows after the rollback are exactly the rows before `begin()`,
so in particular the row count is unchanged. -/
theorem begin_inserts_rollback_identity (rows0 : List Row) (conn : Nat)
    (rs : List Row) (db1 : Db)
    (hbegin : beginTx { rows := rows0, pending := [], tx := .idle } conn =
      .ok db1) :
    rollbackTx (execInserts db1 rs) =
      .ok { rows := rows0, pending := [], tx := .idle } := by
  have hdb1 : db1 = { rows := rows0, pending := [], tx := .active conn } := by
    simpa [beginTx] using hbegin.symm
  subst hdb1
  have hkeep : ∀ (db : Db) (c : Nat), db.tx = .active c →
      (execInserts db rs).tx = .active c ∧ (execInserts db rs).rows = db.rows := by
    induction rs with
    | nil => intro db c h; exact ⟨h, rfl⟩
    | cons r rest ih =>
        intro db c h
        have hstep : execInsert db r =
            { db with pending := db.pending ++ [r] } := by
          simp [execInsert, h]
        have := ih { db with pending := db.pending ++ [r] } c h
        simpa [execInserts, List.foldl, hstep] using this
  obtain ⟨htx, hrows⟩ :=
    hkeep { rows := rows0, pending := [], tx := .active conn } conn rfl
  unfold rollbackTx
  rw [htx]
  simp [hrows]

/-- Witness for C5: beginning on an empty table, inserting two rows and rolling
back restores the empty table in `IDLE`. -/
theorem begin_inserts_rollback_identity_witness :
    beginTx { rows := [], pending := [], tx := .idle } 0 =
      .ok { rows := [], pending := [], tx := .active 0 } ∧
    rollbackTx (execInserts { rows := [], pending := [], tx := .active 0 }
        [[SqlValue.integer 1], [SqlValue.integer 2]]) =
      .ok { rows := [], pending := [], tx := .idle } :=
  ⟨rfl,
    begin_inserts_rollback_identity [] 0
      [[SqlValue.integer 1], [SqlValue.integer 2]]
      { rows := [], pending := [], tx := .active 0 } rfl⟩

/-- While a transaction is `ACTIVE`, every executed insert lands in the
pending buffer of the pinned connection, in submission order, leaving the
committed rows and the controller state untouched. -/
theorem execInserts_active (rs : List Row) :
    ∀ (db : Db) (c : Nat), db.tx = .active c →
      execInserts db rs =
        { rows := db.rows, pending := db.pending ++ rs, tx := .active c } := by
  induction rs with
  | nil => intro db c h; simp [execInserts, ← h]
  | cons r rest ih =>
      intro db c h
      have hstep : execInsert db r = { db with pending := db.pending ++ [r] } := by
        simp [execInsert, h]
      have := ih { db with pending := db.pending ++ [r] } c h
      simpa [execInserts, List.foldl, hstep] using this

/-- Claim C6: `begin()`, then N inserts, then `commit()` makes exactly those N
rows durable: the committed table is the old table followed by the N inserted
rows, so the row count grows by exactly N.  The inserts are quantified as an
arbitrary list in arbitrary submission order, which covers submissions from
multiple concurrent tasks: while `ACTIVE` they all go through the pinned
connection and serialize in submission order, and all commit together. -/
theorem begin_inserts_commit_adds_n (rows0 : List Row) (conn : Nat)
    (rs : List Row) (db1 : Db)
    (hbegin : beginTx { rows := rows0, pending := [], tx := .idle } conn =
      .ok db1) :
    commitTx (execInserts db1 rs) =
      .ok { rows := rows0 ++ rs, pending := [], tx := .idle } ∧
    (rows0 ++ rs).length = rows0.length + rs.length := by
  have hdb1 : db1 = { rows := rows0, pending := [], tx := .active conn } := by
    simpa [beginTx] using hbegin.symm
  subst hdb1
  have hexec := execInserts_active rs
    { rows := rows0, pending := [], tx := .active conn } conn rfl
  rw [hexec]
  exact ⟨by simp [commitTx], by simp⟩

/-- Witness for C6: beginning on a table of one row, inserting three rows and
committing yields the four rows, a count increase of exactly three. -/
theorem begin_inserts_commit_adds_n_witness :
    commitTx (execInserts
        { rows := [[SqlValue.null]], pending := [], tx := .active 2 }
        [[SqlValue.integer 0], [SqlValue.integer 1], [SqlValue.integer 2]]) =
      .ok { rows := [[SqlValue.null], [SqlValue.integer 0],
                     [SqlValue.integer 1], [SqlValue.integer 2]],
            pending := [], tx := .idle } ∧
    ([[SqlValue.null], [SqlValue.integer 0], [SqlValue.integer 1],
        [SqlValue.integer 2]] : List Row).length =
      ([[SqlValue.null]] : List Row).length + 3 :=
  begin_inserts_commit_adds_n [[SqlValue.null]] 2
    [[SqlValue.integer 0], [SqlValue.integer 1], [SqlValue.integer 2]]
    { rows := [[SqlValue.null]], pending := [], tx := .active 2 } rfl

/-- Claim C7: from any `ACTIVE` transaction — whichever branch asked for the
rollback — `rollback()` returns the controller to `IDLE` with the pending
(rolled-back) inserts discarded; a subsequent `begin()` then succeeds, and
after inserting and committing new work, exactly the previously committed rows
plus the new work are visible: the rolled-back inserts are absent. -/
theorem rollback_resets_to_idle (db : Db) (c : Nat) (h : db.tx = .active c)
    (conn2 : Nat) (rs2 : List Row) :
    ∃ db1, rollbackTx db = .ok db1 ∧ db1.tx = .idle ∧ db1.rows = db.rows ∧
      ∃ db2, beginTx db1 conn2 = .ok db2 ∧
        commitTx (execInserts db2 rs2) =
          .ok { rows := db.rows ++ rs2, pending := [], tx := .idle } := by
  refine ⟨{ rows := db.rows, pending := [], tx := .idle }, ?_, rfl, rfl,
    { rows := db.rows, pending := [], tx := .active conn2 }, ?_, ?_⟩
  · unfold rollbackTx; rw [h]
  · simp [beginTx]
  · have hexec := execInserts_active rs2
      { rows := db.rows, pending := [], tx := .active conn2 } conn2 rfl
    rw [hexec]
    simp [commitTx]

/-- Witness for C7: rolling back a transaction holding one pending insert,
then beginning again, inserting one row and committing, leaves only the second
row visible. -/
theorem rollback_resets_to_idle_witness :
    ({ rows := [], pending := [[SqlValue.integer 10]],
        tx := .active 0 } : Db).tx = .active 0 ∧
      ∃ db1,
        rollbackTx
            { rows := [], pending := [[SqlValue.integer 10]],
              tx := .active 0 } = .ok db1 ∧
        db1.tx = .idle ∧
        db1.rows =
          ({ rows := [], pending := [[SqlValue.integer 10]],
              tx := .active 0 } : Db).rows ∧
        ∃ db2, beginTx db1 1 = .ok db2 ∧
          commitTx (execInserts db2 [[SqlValue.integer 20]]) =
            .ok { rows := [[SqlValue.integer 20]], pending := [],
                  tx := .idle } :=
  ⟨rfl,
    rollback_resets_to_idle
      { rows := [], pending := [[SqlValue.integer 10]], tx := .active 0 }
      0 rfl 1 [[SqlValue.integer 20]]⟩

/-! ## Row retrieval façade (spec sections 4.8 and 6) -/

/-- Modelled from the spec: `fetch_one` over a materialized result set
(missing native core): the first row, or the `NoRow` error when the result set
is empty. -/
def fetch_one (result : List Row) : Except RapError Row :=
  match result with
  | [] => .error .noRow
  | r :: _ => .ok r

/-- Modelled from the spec: `fetch_optional` over a materialized result set
(missing native core): the first row, or null when the result set is empty. -/
def fetch_optional (result : List Row) : Option Row :=
  match result with
  | [] => none
  | r :: _ => some r

/-- Claim C8: on an empty result set `fetch_one` fails with `NoRow` and
`fetch_optional` returns null; on a result set with at least one row, both
return the first row. -/
theorem fetch_one_optional_first_row (result : List Row) :
    (result = [] →
      fetch_one result = .error .noRow ∧ fetch_optional result = none) ∧
    (∀ r t, result = r :: t →
      fetch_one result = .ok r ∧ fetch_optional result = some r) := by
  constructor
  · intro h; subst h; exact ⟨rfl, rfl⟩
  · intro r t h; subst h; exact ⟨rfl, rfl⟩

/-- Witness for C8: the empty result set yields `NoRow`/null, and a singleton
result set yields its row from both operations. -/
theorem fetch_one_optional_first_row_witness :
    (fetch_one ([] : List Row) = .error .noRow ∧
      fetch_optional ([] : List Row) = none) ∧
    (fetch_one [[SqlValue.text "only"]] = .ok [SqlValue.text "only"] ∧
      fetch_optional [[SqlValue.text "only"]] = some [SqlValue.text "only"]) :=
  ⟨(fetch_one_optional_first_row []).1 rfl,
    (fetch_one_optional_first_row [[SqlValue.text "only"]]).2
      [SqlValue.text "only"] [] rfl⟩

/-! ## Pool configuration accessors (spec sections 3 and 6) -/

/-- Modelled from the spec: the host-language values a property assignment may
receive — an integer, a string, a float, or `None`. -/
inductive PyValue where
  | int (n : Int)
  | str (s : String)
  | float (bits : Nat)
  | pyNone
deriving DecidableEq, Repr

/-- The Python exception kinds the configuration setters raise. -/
inductive SetterError where
  | valueError (msg : String)
  | typeError (msg : String)
deriving DecidableEq, Repr

/-- Modelled from the spec: the two integer configuration fields on the
database object, each nullable with null meaning unset (the default). -/
structure PoolConfig where
  pool_size : Option Int
  connection_timeout : Option Int
deriving DecidableEq, Repr

/-- A freshly connected database object has both configuration fields unset. -/
def freshConfig : PoolConfig :=
  { pool_size := none, connection_timeout := none }

/-- Modelled from the spec: the `pool_size` property setter (missing native
core).  It validates that the value is an integer `≥ 0` — rejecting negatives
with a `ValueError` carrying the message checked by the tests and non-integers
with a `TypeError` — and stores a valid value verbatim, zero included. -/
def set_pool_size (cfg : PoolConfig) (v : PyValue) : Except SetterError PoolConfig :=
  match v with
  | .int n =>
      if n < 0 then .error (.valueError "pool_size must be >= 0")
      else .ok { cfg with pool_size := some n }
  | _ => .error (.typeError "pool_size must be an int")

/-- Modelled from the spec: the `connection_timeout` property setter (missing
native core), validating exactly as `set_pool_size` does. -/
def set_connection_timeout (cfg : PoolConfig) (v : PyValue) :
    Except SetterError PoolConfig :=
  match v with
  | .int n =>
      if n < 0 then .error (.valueError "connection_timeout must be >= 0")
      else .ok { cfg with connection_timeout := some n }
  | _ => .error (.typeError "connection_timeout must be an int")

/-- A raising Python property assignment leaves the object as it was:
`applySetPoolSize` pairs the surviving configuration with the raised error. -/
def applySetPoolSize (cfg : PoolConfig) (v : PyValue) :
    PoolConfig × Option SetterError :=
  match set_pool_size cfg v with
  | .ok c => (c, none)
  | .error e => (cfg, some e)

/-- The `connection_timeout` analogue of `applySetPoolSize`. -/
def applySetConnectionTimeout (cfg : PoolConfig) (v : PyValue) :
    PoolConfig × Option SetterError :=
  match set_connection_timeout cfg v with
  | .ok c => (c, none)
  | .error e => (cfg, some e)

/-- Claim C9: both setters reject every negative integer with a `ValueError`,
reject every non-integer value (a string, say) with a `TypeError` or
`ValueError`, and accept zero, storing it so that the getter returns 0. -/
theorem pool_config_setters_validate (cfg : PoolConfig) (n : Int) (s : String)
    (hn : n < 0) :
    (∃ m, set_pool_size cfg (.int n) = .error (.valueError m)) ∧
    (∃ m, set_connection_timeout cfg (.int n) = .error (.valueError m)) ∧
    (∃ e, set_pool_size cfg (.str s) = .error e) ∧
    (∃ e, set_connection_timeout cfg (.str s) = .error e) ∧
    (∃ c, set_pool_size cfg (.int 0) = .ok c ∧ c.pool_size = some 0) ∧
    (∃ c, set_connection_timeout cfg (.int 0) = .ok c ∧
      c.connection_timeout = some 0) := by
  refine ⟨⟨"pool_size must be >= 0", ?_⟩,
    ⟨"connection_timeout must be >= 0", ?_⟩,
    ⟨.typeError "pool_size must be an int", rfl⟩,
    ⟨.typeError "connection_timeout must be an int", rfl⟩,
    ⟨{ cfg with pool_size := some 0 }, ?_, rfl⟩,
    ⟨{ cfg with connection_timeout := some 0 }, ?_, rfl⟩⟩
  · simp [set_pool_size, hn]
  · simp [set_connection_timeout, hn]
  · simp [set_pool_size]
  · simp [set_connection_timeout]

/-- Witness for C9: on a fresh database object, −1 and the string "10" are
rejected and 0 is stored by both setters. -/
theorem pool_config_setters_validate_witness :
    (-1 : Int) < 0 ∧
    ((∃ m, set_pool_size freshConfig (.int (-1)) = .error (.valueError m)) ∧
     (∃ m, set_connection_timeout freshConfig (.int (-1)) =
        .error (.valueError m)) ∧
     (∃ e, set_pool_size freshConfig (.str "10") = .error e) ∧
     (∃ e, set_connection_timeout freshConfig (.str "10") = .error e) ∧
     (∃ c, set_pool_size freshConfig (.int 0) = .ok c ∧
        c.pool_size = some 0) ∧
     (∃ c, set_connection_timeout freshConfig (.int 0) = .ok c ∧
        c.connection_timeout = some 0)) :=
  ⟨by decide, pool_config_setters_validate freshConfig (-1) "10" (by decide)⟩

/-- Claim C10: a rejected configuration assignment is atomic — whenever a
setter raises, the stored configuration is exactly what it was before the
call; in particular a fresh database object still reports null for the field
after a failed assignment. -/
theorem rejected_assignment_leaves_config (cfg : PoolConfig) (v : PyValue) :
    ((applySetPoolSize cfg v).2 ≠ none → (applySetPoolSize cfg v).1 = cfg) ∧
    ((applySetConnectionTimeout cfg v).2 ≠ none →
      (applySetConnectionTimeout cfg v).1 = cfg) ∧
    (applySetPoolSize freshConfig (.int (-1))).1.pool_size = none ∧
    (applySetConnectionTimeout freshConfig
      (.int (-1))).1.connection_timeout = none := by
  refine ⟨?_, ?_, rfl, rfl⟩
  · intro h
    unfold applySetPoolSize at *
    cases hs : set_pool_size cfg v with
    | ok c => rw [hs] at h; simp at h
    | error e => rfl
  · intro h
    unfold applySetConnectionTimeout at *
    cases hs : set_connection_timeout cfg v with
    | ok c => rw [hs] at h; simp at h
    | error e => rfl

/-- Witness for C10: a configuration holding 5 survives a rejected assignment
of the string "x" to either property, and a fresh object still reports null
after a rejected −1. -/
theorem rejected_assignment_leaves_config_witness :
    ((applySetPoolSize { pool_size := some 5, connection_timeout := some 5 }
        (.str "x")).2 ≠ none →
      (applySetPoolSize { pool_size := some 5, connection_timeout := some 5 }
        (.str "x")).1 =
        { pool_size := some 5, connection_timeout := some 5 }) ∧
    ((applySetConnectionTimeout
        { pool_size := some 5, connection_timeout := some 5 }
        (.str "x")).2 ≠ none →
      (applySetConnectionTimeout
        { pool_size := some 5, connection_timeout := some 5 }
        (.str "x")).1 =
        { pool_size := some 5, connection_timeout := some 5 }) ∧
    (applySetPoolSize freshConfig (.int (-1))).1.pool_size = none ∧
    (applySetConnectionTimeout freshConfig
      (.int (-1))).1.connection_timeout = none :=
  rejected_assignment_leaves_config
    { pool_size := some 5, connection_timeout := some 5 } (.str "x")

/-! ## Connection pool (spec section 4.6)

The native pool is not under `src/`.  Spec section 4.6 describes a capacity
captured verbatim from `pool_size`, under which a stored 0 would make every
acquire time out; the in-tree test
`test_pool_config_pool_size_zero_ops_succeed` however requires database
operations to succeed with `pool_size = 0`, so — taking the repository's test
as the authority — the model treats a stored 0 (like unset) as a sentinel that
falls back to the default capacity when the pool is created. -/

/-- Modelled from the spec: the small default capacity the engine picks when
`pool_size` is unset. -/
def defaultPoolCapacity : Nat := 5

/-- Modelled from the spec and `test_pool_config_pool_size_zero_ops_succeed`:
the capacity captured at pool creation — `pool_size` when positive, the
default otherwise (unset or stored 0). -/
def effectiveCapacity (ps : Option Int) : Nat :=
  match ps with
  | some n => if n ≤ 0 then defaultPoolCapacity else n.toNat
  | none => defaultPoolCapacity

/-- Modelled from the spec: the pool — a FIFO queue of idle connection ids
plus the count of outstanding handles, bounded by the captured capacity. -/
structure Pool where
  capacity : Nat
  idleConns : List Nat
  outstanding : Nat
deriving DecidableEq, Repr

/-- Modelled from the spec: lazy pool creation captures the current
configuration; the new pool has no connections yet. -/
def mkPool (cfg : PoolConfig) : Pool :=
  { capacity := effectiveCapacity cfg.pool_size, idleConns := [], outstanding := 0 }

/-- Modelled from the spec: the acquire protocol — pop an idle slot if one
exists, else open a new connection while under capacity, else (after the
`connection_timeout` wait, which the model collapses) fail with
`PoolTimeout`. -/
def acquire (p : Pool) : Except RapError (Nat × Pool) :=
  match p.idleConns with
  | c :: rest =>
      .ok (c, { p with idleConns := rest, outstanding := p.outstanding + 1 })
  | [] =>
      if p.outstanding < p.capacity then
        .ok (p.outstanding,
          { p with outstanding := p.outstanding + 1 })
      else .error .poolTimeout

/-- Modelled from the spec: the release protocol — push the handle back onto
the idle queue. -/
def release (p : Pool) (c : Nat) : Pool :=
  { p with idleConns := p.idleConns ++ [c], outstanding := p.outstanding - 1 }

/-- Modelled from the spec: one non-transactional statement on a fresh lazily
created pool: acquire a handle (this is where `PoolTimeout` could arise),
execute the insert, release the handle, and return the resulting rows. -/
def executeOnFreshPool (cfg : PoolConfig) (rows0 : List Row) (r : Row) :
    Except RapError (List Row × Pool) :=
  match acquire (mkPool cfg) with
  | .error e => .error e
  | .ok (c, p) => .ok (rows0 ++ [r], release p c)

/-- Counterexample to claim C2 as stated: with `pool_size = 0` and
`connection_timeout = 5` — the exact configuration of
`test_pool_config_pool_size_zero_ops_succeed` — an insert on the fresh pool
succeeds rather than failing with `PoolTimeout`. -/
theorem pool_size_zero_op_succeeds_cex :
    executeOnFreshPool
        { pool_size := some 0, connection_timeout := some 5 }
        [] [SqlValue.null] =
      .ok ([[SqlValue.null]],
        { capacity := defaultPoolCapacity, idleConns := [0],
          outstanding := 0 }) := by
  rfl

/-- Claim C2 as amended: with `pool_size` set to 0 the value is only a stored
sentinel — the getter reports 0, but pool creation falls back to the default
capacity, so acquire succeeds on a fresh pool and database operations complete
normally instead of failing with `PoolTimeout`. -/
theorem pool_size_zero_ops_succeed (cfg : PoolConfig) (rows0 : List Row)
    (r : Row) (h : cfg.pool_size = some 0) :
    cfg.pool_size = some 0 ∧
    (mkPool cfg).capacity = defaultPoolCapacity ∧
    executeOnFreshPool cfg rows0 r =
      .ok (rows0 ++ [r],
        { capacity := defaultPoolCapacity, idleConns := [0],
          outstanding := 0 }) := by
  have hcap : effectiveCapacity cfg.pool_size = defaultPoolCapacity := by
    rw [h]; rfl
  refine ⟨h, hcap, ?_⟩
  unfold executeOnFreshPool acquire mkPool
  rw [hcap]
  simp [release, defaultPoolCapacity]

/-- Witness for amended C2: the configuration of the zero-pool-size test. -/
theorem pool_size_zero_ops_succeed_witness :
    ({ pool_size := some 0, connection_timeout := some 5 } :
        PoolConfig).pool_size = some 0 ∧
    (mkPool { pool_size := some 0, connection_timeout := some 5 }).capacity =
      defaultPoolCapacity ∧
    executeOnFreshPool { pool_size := some 0, connection_timeout := some 5 }
        [] [SqlValue.integer 1] =
      .ok ([[SqlValue.integer 1]],
        { capacity := defaultPoolCapacity, idleConns := [0],
          outstanding := 0 }) :=
  pool_size_zero_ops_succeed
    { pool_size := some 0, connection_timeout := some 5 }
    [] [SqlValue.integer 1] rfl

/-! ## Concurrent tasks racing the transaction controller

The concurrent-begin test launches K asynchronous tasks, each running
`begin(); INSERT; commit()` and catching the "already in progress"
`OperationalError` (returning failure).  Each controller call holds the
transaction mutex, so a schedule is a sequence of atomic calls; the model
below runs the per-task programs under an arbitrary interleaving. -/

/-- Where a task stands in its `begin(); INSERT; commit()` program: not yet
started, past a successful `begin()`, past its insert, fully committed, or
stopped after catching the "already in progress" error from `begin()`. -/
inductive TaskStatus where
  | ready
  | begun
  | inserted
  | committed
  | failed
deriving DecidableEq, Repr

/-- One atomic controller call by one task. -/
inductive Step where
  | sBegin (tid : Nat)
  | sInsert (tid : Nat)
  | sCommit (tid : Nat)
deriving DecidableEq, Repr

/-- The status of task `i`; indices beyond the task list read as `failed`
(no such task ever acts). -/
def statusAt (l : List TaskStatus) (i : Nat) : TaskStatus :=
  match l, i with
  | [], _ => .failed
  | s :: _, 0 => s
  | _ :: rest, i + 1 => statusAt rest i

/-- Replace the status of task `i` (no-op beyond the list). -/
def setStatus (l : List TaskStatus) (i : Nat) (v : TaskStatus) :
    List TaskStatus :=
  match l, i with
  | [], _ => []
  | _ :: rest, 0 => v :: rest
  | s :: rest, i + 1 => s :: setStatus rest i v

/-- How many tasks currently have status `x`. -/
def countStatus (x : TaskStatus) : List TaskStatus → Nat
  | [] => 0
  | s :: rest => (if s = x then 1 else 0) + countStatus x rest

/-- The database object together with the statuses of the racing tasks. -/
structure Sys where
  db : Db
  status : List TaskStatus
deriving DecidableEq, Repr

/-- The row each racing task inserts (`INSERT INTO t DEFAULT VALUES`). -/
def taskRow : Row := [SqlValue.null]

/-- One scheduled controller call.  A task's `begin()` goes through `beginTx`:
on success the task proceeds, on the "already in progress" error it stops,
recorded as `failed`.  A task past `begin()` executes its insert through
`execInsert` on the pinned connection; a task past its insert commits via
`commitTx`.  Calls whose task is not at the right point of its program do
nothing (the program order of each task is enforced by the statuses). -/
def stepSys (s : Sys) : Step → Sys
  | .sBegin tid =>
      if statusAt s.status tid = .ready then
        match beginTx s.db tid with
        | .ok db2 => { db := db2, status := setStatus s.status tid .begun }
        | .error _ => { s with status := setStatus s.status tid .failed }
      else s
  | .sInsert tid =>
      if statusAt s.status tid = .begun ∧ s.db.tx = .active tid then
        { db := execInsert s.db taskRow,
          status := setStatus s.status tid .inserted }
      else s
  | .sCommit tid =>
      if statusAt s.status tid = .inserted ∧ s.db.tx = .active tid then
        match commitTx s.db with
        | .ok db2 => { db := db2, status := setStatus s.status tid .committed }
        | .error _ => s
      else s

/-- Run a schedule of controller calls. -/
def runSys (s : Sys) (es : List Step) : Sys := es.foldl stepSys s

/-- The start of the race: K tasks, a database in `IDLE` holding `rows0`. -/
def initSys (rows0 : List Row) (K : Nat) : Sys :=
  { db := { rows := rows0, pending := [], tx := .idle },
    status := List.replicate K .ready }

/-! Pointwise lemmas about `statusAt`, `setStatus` and `countStatus`. -/

theorem statusAt_setStatus_self (l : List TaskStatus) (i : Nat)
    (v : TaskStatus) (h : i < l.length) :
    statusAt (setStatus l i v) i = v := by
  induction l generalizing i with
  | nil => simp at h
  | cons a rest ih =>
      cases i with
      | zero => rfl
      | succ j =>
          have : j < rest.length := by simpa using h
          simpa [setStatus, statusAt] using ih j this

theorem statusAt_setStatus_of_ne (l : List TaskStatus) (i j : Nat)
    (v : TaskStatus) (h : i ≠ j) :
    statusAt (setStatus l i v) j = statusAt l j := by
  induction l generalizing i j with
  | nil => rfl
  | cons a rest ih =>
      cases i with
      | zero =>
          cases j with
          | zero => exact absurd rfl h
          | succ j2 => rfl
      | succ i2 =>
          cases j with
          | zero => rfl
          | succ j2 =>
              have : i2 ≠ j2 := fun he => h (by rw [he])
              simpa [setStatus, statusAt] using ih i2 j2 this

theorem statusAt_of_length_le (l : List TaskStatus) (i : Nat)
    (h : l.length ≤ i) : statusAt l i = .failed := by
  induction l generalizing i with
  | nil => rfl
  | cons a rest ih =>
      cases i with
      | zero => simp at h
      | succ j => exact ih j (by simpa using h)

theorem lt_length_of_statusAt_ne (l : List TaskStatus) (i : Nat)
    (h : statusAt l i ≠ .failed) : i < l.length := by
  by_contra hc
  exact h (statusAt_of_length_le l i (by omega))

theorem countStatus_setStatus_of_ne (l : List TaskStatus) (i : Nat)
    (v x : TaskStatus) (hold : statusAt l i ≠ x) (hv : v ≠ x) :
    countStatus x (setStatus l i v) = countStatus x l := by
  induction l generalizing i with
  | nil => rfl
  | cons a rest ih =>
      cases i with
      | zero =>
          have : a ≠ x := hold
          simp [setStatus, countStatus, this, hv]
      | succ j =>
          have := ih j hold
          simp [setStatus, countStatus, this]

theorem countStatus_setStatus_self (l : List TaskStatus) (i : Nat)
    (v : TaskStatus) (hlen : i < l.length) (hold : statusAt l i ≠ v) :
    countStatus v (setStatus l i v) = countStatus v l + 1 := by
  induction l generalizing i with
  | nil => simp at hlen
  | cons a rest ih =>
      cases i with
      | zero =>
          have : a ≠ v := hold
          simp [setStatus, countStatus, this]
          omega
      | succ j =>
          have hj : j < rest.length := by simpa using hlen
          have := ih j hj hold
          simp [setStatus, countStatus, this]
          omega

theorem statusAt_replicate_of_lt (K i : Nat) (y : TaskStatus) (h : i < K) :
    statusAt (List.replicate K y) i = y := by
  induction K generalizing i with
  | zero => omega
  | succ n ih =>
      cases i with
      | zero => rfl
      | succ j =>
          have : j < n := by omega
          simpa [List.replicate, statusAt] using ih j this

theorem countStatus_replicate_of_ne (K : Nat) (x y : TaskStatus)
    (h : y ≠ x) : countStatus x (List.replicate K y) = 0 := by
  induction K with
  | zero => rfl
  | succ n ih => simp [List.replicate, countStatus, h, ih]

/-- The state invariant of the race: the committed row count exceeds the
initial one by exactly the number of fully committed tasks; in `IDLE` nothing
is pending and no task is mid-transaction; in `ACTIVE(tid)` the pinned task is
past `begin()` with nothing pending or past its single insert with exactly one
pending row, and no other task is mid-transaction. -/
def SysInv (rows0 : List Row) (s : Sys) : Prop :=
  s.db.rows.length = rows0.length + countStatus .committed s.status ∧
  ((s.db.tx = .idle ∧ s.db.pending = [] ∧
      ∀ i, statusAt s.status i ≠ .begun ∧ statusAt s.status i ≠ .inserted) ∨
   (∃ tid, s.db.tx = .active tid ∧
      ((statusAt s.status tid = .begun ∧ s.db.pending = []) ∨
       (statusAt s.status tid = .inserted ∧ s.db.pending.length = 1)) ∧
      ∀ i, i ≠ tid →
        statusAt s.status i ≠ .begun ∧ statusAt s.status i ≠ .inserted))

theorem length_setStatus (l : List TaskStatus) (i : Nat) (v : TaskStatus) :
    (setStatus l i v).length = l.length := by
  induction l generalizing i with
  | nil => rfl
  | cons a rest ih =>
      cases i with
      | zero => rfl
      | succ j => simpa [setStatus] using ih j

/-- Setting any task to a status that is neither `begun` nor `inserted`
preserves "task `i` is not mid-transaction". -/
theorem notMid_setStatus (l : List TaskStatus) (j : Nat) (v : TaskStatus)
    (hv1 : v ≠ .begun) (hv2 : v ≠ .inserted) (i : Nat)
    (h : statusAt l i ≠ .begun ∧ statusAt l i ≠ .inserted) :
    statusAt (setStatus l j v) i ≠ .begun ∧
      statusAt (setStatus l j v) i ≠ .inserted := by
  by_cases hij : j = i
  · subst hij
    by_cases hlen : j < l.length
    · rw [statusAt_setStatus_self _ _ _ hlen]
      exact ⟨hv1, hv2⟩
    · have hout : (setStatus l j v).length ≤ j := by
        rw [length_setStatus]; omega
      rw [statusAt_of_length_le _ _ hout]
      exact ⟨by decide, by decide⟩
  · rw [statusAt_setStatus_of_ne _ _ _ _ hij]
    exact h

/-- Every scheduled controller call preserves the race invariant. -/
theorem stepSys_inv (rows0 : List Row) (s : Sys) (e : Step)
    (h : SysInv rows0 s) : SysInv rows0 (stepSys s e) := by
  obtain ⟨hcount, hrest⟩ := h
  cases e with
  | sBegin tid =>
      by_cases hg : statusAt s.status tid = .ready
      · have hlt : tid < s.status.length :=
          lt_length_of_statusAt_ne _ _ (by rw [hg]; decide)
        rcases hrest with ⟨htx, hpend, hno⟩ | ⟨tid0, htx, hbr, hno⟩
        · have hstep : stepSys s (.sBegin tid) =
              { db := { s.db with tx := .active tid },
                status := setStatus s.status tid .begun } := by
            simp [stepSys, hg, beginTx, htx]
          rw [hstep]
          constructor
          · have hc : countStatus .committed (setStatus s.status tid .begun) =
                countStatus .committed s.status :=
              countStatus_setStatus_of_ne _ _ _ _ (by rw [hg]; decide)
                (by decide)
            simpa [hc] using hcount
          · refine Or.inr ⟨tid, rfl, ?_, fun i hi => ?_⟩
            · exact Or.inl ⟨statusAt_setStatus_self _ _ _ hlt, hpend⟩
            · have hkeep := statusAt_setStatus_of_ne s.status tid i
                TaskStatus.begun (Ne.symm hi)
              simp only [hkeep]
              exact hno i
        · have htid : tid ≠ tid0 := by
            intro he
            rcases hbr with ⟨hb, _⟩ | ⟨hb, _⟩ <;>
              rw [← he, hg] at hb <;> exact absurd hb (by decide)
          have hstep : stepSys s (.sBegin tid) =
              { s with status := setStatus s.status tid .failed } := by
            simp [stepSys, hg, beginTx, htx]
          rw [hstep]
          refine ⟨?_, Or.inr ⟨tid0, htx, ?_, fun i hi => ?_⟩⟩
          · have hc : countStatus .committed (setStatus s.status tid .failed) =
                countStatus .committed s.status :=
              countStatus_setStatus_of_ne _ _ _ _ (by rw [hg]; decide)
                (by decide)
            simpa [hc] using hcount
          · have hkeep := statusAt_setStatus_of_ne s.status tid tid0
              TaskStatus.failed htid
            simp only [hkeep]
            exact hbr
          · exact notMid_setStatus s.status tid .failed (by decide) (by decide)
              i (hno i hi)
      · have hstep : stepSys s (.sBegin tid) = s := by
          simp [stepSys, hg]
        rw [hstep]
        exact ⟨hcount, hrest⟩
  | sInsert tid =>
      by_cases hg : statusAt s.status tid = .begun ∧ s.db.tx = .active tid
      · have hlt : tid < s.status.length :=
          lt_length_of_statusAt_ne _ _ (by rw [hg.1]; decide)
        rcases hrest with ⟨htx, hpend, hno⟩ | ⟨tid0, htx, hbr, hno⟩
        · rw [htx] at hg
          exact absurd hg.2 (by simp)
        · have hte : tid = tid0 := by
            have h1 := hg.2
            rw [htx] at h1
            injection h1 with h2
            exact h2.symm
          subst hte
          have hpend : s.db.pending = [] := by
            rcases hbr with ⟨_, hp⟩ | ⟨hb, _⟩
            · exact hp
            · rw [hg.1] at hb
              exact absurd hb (by decide)
          have hstep : stepSys s (.sInsert tid) =
              { db := { s.db with pending := s.db.pending ++ [taskRow] },
                status := setStatus s.status tid .inserted } := by
            simp [stepSys, hg.1, hg.2, execInsert]
          rw [hstep]
          refine ⟨?_, Or.inr ⟨tid, hg.2, ?_, fun i hi => ?_⟩⟩
          · have hc : countStatus .committed
                (setStatus s.status tid .inserted) =
                countStatus .committed s.status :=
              countStatus_setStatus_of_ne _ _ _ _ (by rw [hg.1]; decide)
                (by decide)
            simpa [hc] using hcount
          · refine Or.inr ⟨statusAt_setStatus_self _ _ _ hlt, ?_⟩
            simp [hpend]
          · have hkeep := statusAt_setStatus_of_ne s.status tid i
              TaskStatus.inserted (Ne.symm hi)
            simp only [hkeep]
            exact hno i hi
      · have hstep : stepSys s (.sInsert tid) = s := by
          simp [stepSys, hg]
        rw [hstep]
        exact ⟨hcount, hrest⟩
  | sCommit tid =>
      by_cases hg : statusAt s.status tid = .inserted ∧ s.db.tx = .active tid
      · have hlt : tid < s.status.length :=
          lt_length_of_statusAt_ne _ _ (by rw [hg.1]; decide)
        rcases hrest with ⟨htx, hpend, hno⟩ | ⟨tid0, htx, hbr, hno⟩
        · rw [htx] at hg
          exact absurd hg.2 (by simp)
        · have hte : tid = tid0 := by
            have h1 := hg.2
            rw [htx] at h1
            injection h1 with h2
            exact h2.symm
          subst hte
          have hpend : s.db.pending.length = 1 := by
            rcases hbr with ⟨hb, _⟩ | ⟨_, hp⟩
            · rw [hg.1] at hb
              exact absurd hb (by decide)
            · exact hp
          have hstep : stepSys s (.sCommit tid) =
              { db := { rows := s.db.rows ++ s.db.pending, pending := [],
                        tx := .idle },
                status := setStatus s.status tid .committed } := by
            simp [stepSys, hg.1, hg.2, commitTx]
          rw [hstep]
          refine ⟨?_, Or.inl ⟨rfl, rfl, fun i => ?_⟩⟩
          · have hc : countStatus .committed
                (setStatus s.status tid .committed) =
                countStatus .committed s.status + 1 :=
              countStatus_setStatus_self _ _ _ hlt (by rw [hg.1]; decide)
            simp only [hc]
            simp only [List.length_append, hpend]
            omega
          · by_cases hit : i = tid
            · subst hit
              rw [statusAt_setStatus_self _ _ _ hlt]
              exact ⟨by decide, by decide⟩
            · have hkeep := statusAt_setStatus_of_ne s.status tid i
                TaskStatus.committed (fun he => hit he.symm)
              simp only [hkeep]
              exact hno i hit
      · have hstep : stepSys s (.sCommit tid) = s := by
          simp [stepSys, hg]
        rw [hstep]
        exact ⟨hcount, hrest⟩

/-- The race invariant holds along any schedule. -/
theorem runSys_inv (rows0 : List Row) (es : List Step) :
    ∀ s : Sys, SysInv rows0 s → SysInv rows0 (runSys s es) := by
  induction es with
  | nil => intro s h; exact h
  | cons e rest ih =>
      intro s h
      simpa [runSys, List.foldl] using ih (stepSys s e) (stepSys_inv rows0 s e h)

/-- The race invariant holds initially. -/
theorem sysInv_init (rows0 : List Row) (K : Nat) :
    SysInv rows0 (initSys rows0 K) := by
  constructor
  · have h0 : countStatus .committed (List.replicate K .ready) = 0 :=
      countStatus_replicate_of_ne K _ _ (by decide)
    simp [initSys, h0]
  · refine Or.inl ⟨rfl, rfl, fun i => ?_⟩
    by_cases hi : i < K
    · have := statusAt_replicate_of_lt K i TaskStatus.ready hi
      simp only [initSys, this]
      exact ⟨by decide, by decide⟩
    · have hout : (List.replicate K TaskStatus.ready).length ≤ i := by
        simp; omega
      have := statusAt_of_length_le (List.replicate K .ready) i hout
      simp only [initSys, this]
      exact ⟨by decide, by decide⟩

/-- While a transaction is `ACTIVE`, a wave of `begin()` calls from distinct
tasks that are all still at the start of their programs fails every one of
them: the database object is untouched and exactly those tasks move to
`failed`. -/
theorem runSys_begin_all_fail (ts : List Nat) :
    ∀ (s : Sys) (c : Nat), s.db.tx = .active c →
      (∀ t ∈ ts, statusAt s.status t = .ready) → ts.Nodup →
      (runSys s (ts.map Step.sBegin)).db = s.db ∧
      countStatus .failed (runSys s (ts.map Step.sBegin)).status =
        countStatus .failed s.status + ts.length ∧
      ∀ x, x ≠ .ready → x ≠ .failed →
        countStatus x (runSys s (ts.map Step.sBegin)).status =
          countStatus x s.status := by
  induction ts with
  | nil =>
      intro s c _ _ _
      exact ⟨rfl, by simp [runSys], fun x _ _ => rfl⟩
  | cons t rest ih =>
      intro s c htx hready hnodup
      have hg : statusAt s.status t = .ready := hready t (by simp)
      have hlt : t < s.status.length :=
        lt_length_of_statusAt_ne _ _ (by rw [hg]; decide)
      have hstep : stepSys s (.sBegin t) =
          { s with status := setStatus s.status t .failed } := by
        simp [stepSys, hg, beginTx, htx]
      obtain ⟨hmem, hnd⟩ := List.nodup_cons.mp hnodup
      have hready2 : ∀ u ∈ rest,
          statusAt (setStatus s.status t .failed) u = .ready := by
        intro u hu
        have hne : t ≠ u := fun he => hmem (he ▸ hu)
        rw [statusAt_setStatus_of_ne _ _ _ _ hne]
        exact hready u (by simp [hu])
      have hrec := ih { s with status := setStatus s.status t .failed } c htx
        hready2 hnd
      have hrun : runSys s ((t :: rest).map Step.sBegin) =
          runSys { s with status := setStatus s.status t .failed }
            (rest.map Step.sBegin) := by
        simp [runSys, List.foldl, hstep]
      rw [hrun]
      refine ⟨hrec.1, ?_, ?_⟩
      · have hone : countStatus .failed (setStatus s.status t .failed) =
            countStatus .failed s.status + 1 :=
          countStatus_setStatus_self _ _ _ hlt (by rw [hg]; decide)
        rw [hrec.2.1]
        simp only [hone, List.length_cons]
        omega
      · intro x hx1 hx2
        rw [hrec.2.2 x hx1 hx2]
        exact countStatus_setStatus_of_ne _ _ _ _
          (by rw [hg]; exact fun he => hx1 he.symm) (fun he => hx2 he.symm)

/-- Claim C3: when K distinct tasks all issue their `begin()` calls while the
controller starts `IDLE` and before any of them commits, exactly one task's
`begin()` succeeds and the other K − 1 tasks fail (each catching the
`OperationalError` carrying "already in progress" that `beginTx` returns on a
non-`IDLE` state); and for any continuation of the schedule, the committed row
count afterwards exceeds the initial one by exactly the number of tasks whose
whole `begin(); INSERT; commit()` sequence succeeded. -/
theorem concurrent_begin_one_winner (rows0 : List Row) (K t0 : Nat)
    (ts : List Nat) (rest : List Step)
    (hnodup : (t0 :: ts).Nodup)
    (hlt : ∀ t ∈ t0 :: ts, t < K)
    (hlen : (t0 :: ts).length = K) :
    (countStatus .begun
        (runSys (initSys rows0 K) ((t0 :: ts).map Step.sBegin)).status = 1 ∧
     countStatus .failed
        (runSys (initSys rows0 K) ((t0 :: ts).map Step.sBegin)).status =
       K - 1) ∧
    (runSys (initSys rows0 K)
        ((t0 :: ts).map Step.sBegin ++ rest)).db.rows.length =
      rows0.length +
        countStatus .committed
          (runSys (initSys rows0 K)
            ((t0 :: ts).map Step.sBegin ++ rest)).status := by
  have ht0 : t0 < K := hlt t0 (by simp)
  have hg0 : statusAt (List.replicate K .ready) t0 = .ready :=
    statusAt_replicate_of_lt K t0 _ ht0
  have hlen0 : t0 < (List.replicate K TaskStatus.ready).length := by
    simp [ht0]
  have hstep0 : stepSys (initSys rows0 K) (.sBegin t0) =
      { db := { rows := rows0, pending := [], tx := .active t0 },
        status := setStatus (List.replicate K .ready) t0 .begun } := by
    simp [stepSys, initSys, hg0, beginTx]
  obtain ⟨hmem, hnd⟩ := List.nodup_cons.mp hnodup
  have hready1 : ∀ t ∈ ts,
      statusAt (setStatus (List.replicate K .ready) t0 .begun) t = .ready := by
    intro t htm
    have hne : t0 ≠ t := fun he => hmem (he ▸ htm)
    rw [statusAt_setStatus_of_ne _ _ _ _ hne]
    exact statusAt_replicate_of_lt K t _ (hlt t (by simp [htm]))
  have hfail := runSys_begin_all_fail ts
    { db := { rows := rows0, pending := [], tx := .active t0 },
      status := setStatus (List.replicate K .ready) t0 .begun } t0 rfl
    hready1 hnd
  have hrun : runSys (initSys rows0 K) ((t0 :: ts).map Step.sBegin) =
      runSys { db := { rows := rows0, pending := [], tx := .active t0 },
               status := setStatus (List.replicate K .ready) t0 .begun }
        (ts.map Step.sBegin) := by
    simp [runSys, List.foldl, hstep0]
  constructor
  · constructor
    · rw [hrun, hfail.2.2 .begun (by decide) (by decide)]
      have hrep : countStatus .begun (List.replicate K TaskStatus.ready) = 0 :=
        countStatus_replicate_of_ne K _ _ (by decide)
      have := countStatus_setStatus_self (List.replicate K .ready) t0 .begun
        hlen0 (by rw [hg0]; decide)
      rw [this, hrep]
    · rw [hrun, hfail.2.1]
      have hrep : countStatus .failed (List.replicate K TaskStatus.ready) = 0 :=
        countStatus_replicate_of_ne K _ _ (by decide)
      have hkeep : countStatus .failed
          (setStatus (List.replicate K .ready) t0 .begun) =
          countStatus .failed (List.replicate K .ready) :=
        countStatus_setStatus_of_ne _ _ _ _ (by rw [hg0]; decide) (by decide)
      rw [hkeep, hrep]
      simp only [List.length_cons] at hlen
      omega
  · exact (runSys_inv rows0 ((t0 :: ts).map Step.sBegin ++ rest)
      (initSys rows0 K) (sysInv_init rows0 K)).1

/-- Witness for C3: three tasks, task 1 first to the mutex, tasks 0 and 2
failing, then task 1 inserting and committing: one row appears and the count
matches the single fully committed task. -/
theorem concurrent_begin_one_winner_witness :
    ([1, 0, 2] : List Nat).Nodup ∧ (∀ t ∈ [1, 0, 2], t < 3) ∧
    ([1, 0, 2] : List Nat).length = 3 ∧
    ((countStatus .begun
        (runSys (initSys [] 3) ([1, 0, 2].map Step.sBegin)).status = 1 ∧
      countStatus .failed
        (runSys (initSys [] 3) ([1, 0, 2].map Step.sBegin)).status = 3 - 1) ∧
     (runSys (initSys [] 3)
        ([1, 0, 2].map Step.sBegin ++
          [Step.sInsert 1, Step.sCommit 1])).db.rows.length =
       ([] : List Row).length +
         countStatus .committed
           (runSys (initSys [] 3)
             ([1, 0, 2].map Step.sBegin ++
               [Step.sInsert 1, Step.sCommit 1])).status) :=
  ⟨by decide, by decide, by decide,
    concurrent_begin_one_winner [] 3 1 [0, 2]
      [Step.sInsert 1, Step.sCommit 1] (by decide) (by decide) (by decide)⟩

end Rapsqlite
